import Mathlib

/-!
Verification development for the kronicle SDK core: the recursive
type-compatibility checker (`kronicable_type.py`), the sample row
serializer (`kronicable_sample.py`), the payload schema validation
(`kronicle_payload.py`) and the resilient connector with its retry loop,
directory cache and convenience queries (`abc_connector.py`).

Python annotations, values, HTTP responses and connector state are given
a shallow embedding; each Lean definition is translated from the named
Python function.
-/

set_option maxHeartbeats 1000000

namespace Kronicle

/-! ## Type-compatibility checker (`kronicle/models/kronicable_type.py`)

`COL_TO_PY_TYPE` maps the seven fixed labels to the Python classes
`str, int, float, bool, IsoDateTime, dict, list` (the `"datetime"` label
is bound to `IsoDateTime`, a custom subclass of `datetime`).  `PrimKind`
enumerates these seven classes in the dictionary's insertion order. -/

inductive PrimKind
  | str
  | int
  | float
  | bool
  | datetime
  | dict
  | list
deriving DecidableEq

/-- The label string for each entry of `COL_TO_PY_TYPE`. -/
def primName : PrimKind → String
  | .str => "str"
  | .int => "int"
  | .float => "float"
  | .bool => "bool"
  | .datetime => "datetime"
  | .dict => "dict"
  | .list => "list"

/-- The keys of `COL_TO_PY_TYPE` in insertion order, as iterated by
`to_kronicle_type`. -/
def primOrder : List PrimKind :=
  [.str, .int, .float, .bool, .datetime, .dict, .list]

/-- A Python class, abstracted to the facts the checker queries about it:
`subPrim` is the set of `COL_TO_PY_TYPE` classes it subclasses
(`issubclass`; e.g. Python `bool` subclasses both `int` and `bool`, and
`IsoDateTime` subclasses the class bound to the `"datetime"` label),
`exactPrim` marks the builtin primitive itself (used for the identity
test `args[0] is str` in `is_valid_dict`), `isBaseModel` tells whether it
subclasses pydantic `BaseModel`. -/
structure PyClass where
  subPrim : List PrimKind
  exactPrim : Option PrimKind
  isBaseModel : Bool
deriving DecidableEq

/-- A Python type annotation as seen through `get_origin`/`get_args`:
a plain class, the `NoneType` class, `list[T]`, `dict[K, V]`, or a union
(`typing.Union` / `types.UnionType`, whose arguments `get_args` returns). -/
inductive PyAnn
  | cls (c : PyClass)
  | noneType
  | listOf (t : PyAnn)
  | dictOf (k v : PyAnn)
  | unionOf (args : List PyAnn)

/-- Identity test against `NoneType` (`a is type(None)`). -/
def isNoneTypeAnn : PyAnn → Bool
  | .noneType => true
  | _ => false

/-- `NoneType in get_args(typ)` over a union's argument list. -/
def hasNoneType (l : List PyAnn) : Bool :=
  l.any isNoneTypeAnn

/-- `[a for a in get_args(...) if a is not type(None)]`. -/
def nonNoneArgs (l : List PyAnn) : List PyAnn :=
  l.filter (fun a => !isNoneTypeAnn a)

/-- `get_args` of an annotation. -/
def get_args : PyAnn → List PyAnn
  | .listOf t => [t]
  | .dictOf k v => [k, v]
  | .unionOf args => args
  | _ => []

/-- `KronicableTypeChecker.is_optional`: the origin is a union form and
`NoneType` is among its arguments. -/
def is_optional : PyAnn → Bool
  | .unionOf args => hasNoneType args
  | _ => false

/-- `KronicableTypeChecker.inner_optional`: the non-`None` arguments of
the annotation; raises `TypeError` unless there is exactly one. -/
def inner_optional (a : PyAnn) : Except String PyAnn :=
  match nonNoneArgs (get_args a) with
  | [t] => .ok t
  | _ => .error "Optional annotation must contain exactly one non-None type"

/-- `isinstance(typ, type)`: plain classes and `NoneType` are types;
generic aliases (`list[T]`, `dict[K, V]`) and union objects are not. -/
def isTypeInst : PyAnn → Bool
  | .cls _ => true
  | .noneType => true
  | _ => false

/-- `issubclass(typ, PRIMITIVE_TYPES)` for an annotation already known to
be a class (`NoneType` subclasses none of the seven). -/
def subclassesAnyPrim : PyAnn → Bool
  | .cls c => !c.subPrim.isEmpty
  | _ => false

/-- `issubclass(typ, v)` against a single `COL_TO_PY_TYPE` class. -/
def subclassOfPrim : PyAnn → PrimKind → Bool
  | .cls c, k => decide (k ∈ c.subPrim)
  | _, _ => false

/-- `KronicableTypeChecker.is_primitive`: unwrap `Optional[T]` (which can
raise from `inner_optional`), then accept exactly the classes that
subclass one of the `PRIMITIVE_TYPES`. -/
def is_primitive (a : PyAnn) : Except String Bool := do
  let typ ← if is_optional a then inner_optional a else .ok a
  .ok (isTypeInst typ && subclassesAnyPrim typ)

/-- `KronicableTypeChecker.is_basemodel`: the annotation itself is a
class subclassing pydantic `BaseModel` (no Optional unwrap here). -/
def is_basemodel : PyAnn → Bool
  | .cls c => c.isBaseModel
  | _ => false

/-- The element test shared by `is_valid_list` / `is_valid_dict`:
`isinstance(t, type) and (issubclass(t, BaseModel) or issubclass(t, PRIMITIVE_TYPES))`. -/
def okElem : PyAnn → Bool
  | .cls c => c.isBaseModel || !c.subPrim.isEmpty
  | _ => false

/-- `KronicableTypeChecker.is_valid_list`: origin `list`, one argument,
which is a class and a `BaseModel` subclass or primitive subclass. -/
def is_valid_list : PyAnn → Bool
  | .listOf t => okElem t
  | _ => false

/-- `args[0] is str`: identity with the builtin `str` class. -/
def keyIsStr : PyAnn → Bool
  | .cls c => match c.exactPrim with
    | some .str => true
    | _ => false
  | _ => false

/-- `KronicableTypeChecker.is_valid_dict`: origin `dict`, two arguments,
the key exactly `str`, the value a class that is a `BaseModel` subclass
or primitive subclass. -/
def is_valid_dict : PyAnn → Bool
  | .dictOf k v => keyIsStr k && okElem v
  | _ => false

/-- `KronicableTypeChecker.is_valid`.  For `Optional[T]` it recurses on
the single inner type (raising `TypeError` via `inner_optional` when the
union has several non-`None` members); a union without `None` fails every
branch (a union object is not a class), yielding `False`; otherwise the
annotation is valid iff it is a primitive, a `BaseModel` subclass, or a
valid `list`/`dict` form. -/
def is_valid : PyAnn → Except String Bool
  | .unionOf args =>
    if hasNoneType args then
      match h : nonNoneArgs args with
      | [t] => is_valid t
      | _ => .error "Optional annotation must contain exactly one non-None type"
    else
      .ok false
  | a => .ok (isTypeInst a && subclassesAnyPrim a || is_basemodel a ||
      is_valid_list a || is_valid_dict a)
termination_by a => sizeOf a
decreasing_by
  have ht : t ∈ nonNoneArgs args := by rw [h]; exact List.mem_singleton_self t
  have ht2 : t ∈ args := List.mem_of_mem_filter ht
  have := List.sizeOf_lt_of_mem ht2
  simp only [PyAnn.unionOf.sizeOf_spec]
  omega

/-- The `for k, v in COL_TO_PY_TYPE.items()` loop of `to_kronicle_type`:
the first label whose class the (unwrapped) annotation subclasses. -/
def primLoop (typ : PyAnn) : Option PrimKind :=
  primOrder.find? (fun k => isTypeInst typ && subclassOfPrim typ k)

/-- `KronicableTypeChecker.to_kronicle_type`: raise unless valid, unwrap
`Optional[T]`, return the first matching primitive label in dictionary
order, else `"dict"`/`"list"` for generic aliases, else `"str"` for
`BaseModel` subclasses and as the fallback. -/
def to_kronicle_type (a : PyAnn) : Except String String := do
  let v ← is_valid a
  if !v then
    .error "Type is not Kronicable"
  else do
    let typ ← if is_optional a then inner_optional a else .ok a
    match primLoop typ with
    | some k => .ok (primName k)
    | none =>
      match typ with
      | .dictOf _ _ => .ok "dict"
      | .listOf _ => .ok "list"
      | _ => .ok "str"

/-! ## Sample model (`kronicle/models/kronicable_sample.py`)

A `KronicableSample` subclass is a pydantic model: its declaration lists
fields with annotations.  Creating the class itself runs no validator;
`_check_field_types` is a `model_validator(mode="before")`, so it runs
when an instance is validated (constructed), before the instance exists. -/

/-- One declared field of a sample class: its name and annotation. -/
structure FieldDecl where
  name : String
  ann : PyAnn

/-- A sample class: the ordered field declarations (`model_fields`). -/
structure SampleType where
  fields : List FieldDecl

/-- Defining a `KronicableSample` subclass.  Pydantic class creation
builds the model but executes no validator, so any field list yields a
class; the type check is attached to validation, not to definition. -/
def defineSampleType (fields : List FieldDecl) : Except String SampleType :=
  .ok ⟨fields⟩

/-- The loop body of `KronicableSample._check_field_types`: for each
field build a checker on its annotation and raise `TypeError` unless
`is_valid` (which may itself raise from `inner_optional`). -/
def checkFields : List FieldDecl → Except String Unit
  | [] => .ok ()
  | f :: rest => do
    let v ← is_valid f.ann
    if !v then
      .error ("Field " ++ f.name ++ " has unsupported type for Kronicable")
    else
      checkFields rest

/-- A Python runtime value as relevant to `to_row`: `None`, scalars, a
pydantic `BaseModel` instance (its field map), a list, or a dict. -/
inductive PyValue
  | noneV
  | boolV (b : Bool)
  | intV (n : Int)
  | strV (s : String)
  | modelV (fields : List (String × PyValue))
  | listV (xs : List PyValue)
  | dictV (kvs : List (String × PyValue))

/-- A constructed sample instance: its class and its attribute map
(`self.__dict__`, in declaration order). -/
structure SampleInst where
  tp : SampleType
  vals : List (String × PyValue)

/-- Instance construction: pydantic runs the `mode="before"` validator
`_check_field_types` first; only if it passes is the instance produced.
(Pydantic's own per-field value coercion is not modelled: no claim
depends on it, and attributes can be reassigned after construction
without validation, as the module's own demo does.) -/
def constructInstance (t : SampleType) (vals : List (String × PyValue)) :
    Except String SampleInst := do
  checkFields t.fields
  .ok ⟨t, vals⟩

/-- JSON string escaping for the quote and backslash characters
(the further control-character escapes of Python's encoder are not
modelled; no claim inspects serialized content containing them). -/
def escapeStr (s : String) : String :=
  String.join (s.toList.map fun c =>
    if c = '"' then "\\\"" else if c = '\\' then "\\\\" else String.singleton c)

/-- A JSON-quoted string. -/
def quoteStr (s : String) : String :=
  "\"" ++ escapeStr s ++ "\""

mutual

/-- Render a value as JSON text with the given item and key separators
(`json.dumps` uses `", "`/`": "`, pydantic `model_dump_json` uses
`","`/`":"`).  A `BaseModel` is rendered as the object of its dumped
fields, matching `model_dump` / `model_dump_json`. -/
def renderJson (isep ksep : String) : PyValue → String
  | .noneV => "null"
  | .boolV true => "true"
  | .boolV false => "false"
  | .intV n => toString n
  | .strV s => quoteStr s
  | .modelV fs => "\x7b" ++ renderPairs isep ksep fs ++ "\x7d"
  | .listV xs => "[" ++ renderItems isep ksep xs ++ "]"
  | .dictV kvs => "\x7b" ++ renderPairs isep ksep kvs ++ "\x7d"

/-- Render list elements joined by the item separator. -/
def renderItems (isep ksep : String) : List PyValue → String
  | [] => ""
  | [x] => renderJson isep ksep x
  | x :: y :: rest => renderJson isep ksep x ++ isep ++ renderItems isep ksep (y :: rest)

/-- Render object entries joined by the item separator. -/
def renderPairs (isep ksep : String) : List (String × PyValue) → String
  | [] => ""
  | [(k, v)] => quoteStr k ++ ksep ++ renderJson isep ksep v
  | (k, v) :: p :: rest =>
    quoteStr k ++ ksep ++ renderJson isep ksep v ++ isep ++ renderPairs isep ksep (p :: rest)

end

/-- `json.dumps` with its default separators. -/
def jsonDumps (v : PyValue) : String :=
  renderJson ", " ": " v

/-- Pydantic `model_dump_json` (compact separators). -/
def modelDumpJson (v : PyValue) : String :=
  renderJson "," ":" v

/-- `isinstance(value, BaseModel)`. -/
def isBaseModelV : PyValue → Bool
  | .modelV _ => true
  | _ => false

/-- `getattr(self, name)` on the instance attribute map; a missing
attribute raises `AttributeError`. -/
def lookupVal (vals : List (String × PyValue)) (n : String) : Except String PyValue :=
  match vals.find? (fun kv => decide (kv.1 = n)) with
  | some kv => .ok kv.2
  | none => .error ("AttributeError: " ++ n)

/-- `self.__class__.model_fields[name].annotation`; a missing key raises
`KeyError`. -/
def lookupAnn (fields : List FieldDecl) (n : String) : Except String PyAnn :=
  match fields.find? (fun f => decide (f.name = n)) with
  | some f => .ok f.ann
  | none => .error ("KeyError: " ++ n)

/-- The `ValueError` message for a required field holding `None`. -/
def requiredNoneMsg (n : String) : String :=
  "Field " ++ n ++ " is required but has value None"

/-- The serialization branch of `to_row` for a non-`None` value: a
`BaseModel` becomes its `model_dump_json` string; a list whose elements
are all `BaseModel`s (vacuously so when empty) becomes
`dumps([v.model_dump() for v in value])`; a dict whose values are all
`BaseModel`s becomes `dumps({...})`; anything else is copied as-is. -/
def rowValue : PyValue → PyValue
  | .modelV fs => .strV (modelDumpJson (.modelV fs))
  | .listV xs =>
    if xs.all isBaseModelV then .strV (jsonDumps (.listV xs)) else .listV xs
  | .dictV kvs =>
    if kvs.all (fun kv => isBaseModelV kv.2) then .strV (jsonDumps (.dictV kvs))
    else .dictV kvs
  | v => v

/-- The per-field loop of `KronicableSample.to_row`: look up the value
and the declared annotation; a `None` value is skipped when the field is
optional and raises `ValueError` naming the field when it is required;
other values pass through the serialization branch. -/
def to_row_go (tp : SampleType) (vals : List (String × PyValue)) :
    List String → Except String (List (String × PyValue))
  | [] => .ok []
  | n :: rest => do
    let value ← lookupVal vals n
    let ftype ← lookupAnn tp.fields n
    match value with
    | .noneV =>
      if is_optional ftype then
        to_row_go tp vals rest
      else
        .error (requiredNoneMsg n)
    | v => (fun r => (n, rowValue v) :: r) <$> to_row_go tp vals rest

/-- `fields = include_fields if include_fields else self.__dict__.keys()`:
a `None` or empty list falls back to all instance attributes. -/
def includeResolve (inst : SampleInst) (include_fields : Option (List String)) :
    List String :=
  match include_fields with
  | some l => if l.isEmpty then inst.vals.map (·.1) else l
  | none => inst.vals.map (·.1)

/-- `KronicableSample.to_row`. -/
def to_row (inst : SampleInst) (include_fields : Option (List String)) :
    Except String (List (String × PyValue)) :=
  to_row_go inst.tp inst.vals (includeResolve inst include_fields)

/-! ## Payload model (`kronicle/models/kronicle_payload.py`) -/

/-- `STR_TYPES`: the keys of `COL_TO_PY_TYPE`, the fixed label set. -/
def STR_TYPES : List String :=
  ["str", "int", "float", "bool", "datetime", "dict", "list"]

/-- `KroniclePayload._validate_schema` on a present schema: collect every
entry whose value is not a recognized label; raise `ValueError` carrying
that offending map when it is nonempty, else accept the schema. -/
def validate_schema (schema : List (String × String)) :
    Except (List (String × String)) (List (String × String)) :=
  let invalid := schema.filter (fun kv => !(decide (kv.2 ∈ STR_TYPES)))
  if invalid.isEmpty then .ok schema else .error invalid

/-- The payload fields the claims inspect (`sensor_id`, `sensor_schema`,
`sensor_name`, and the derived `available_rows`).  `sensor_id` is a UUID
string when assigned. -/
structure KPayload where
  sensor_id : Option String := none
  sensor_schema : Option (List (String × String)) := none
  sensor_name : Option String := none
  available_rows : Int := 0
deriving DecidableEq

/-- `KroniclePayload._populate_available_rows`: after construction, if
`op_details` holds a truthy `available_rows` it overrides the default 0
(a falsy value, such as 0 or a missing key, leaves the default). -/
def deriveAvailableRows (opDetailsAvailableRows : Option Int) : Int :=
  match opDetailsAvailableRows with
  | some n => if n = 0 then 0 else n
  | none => 0

/-- Payload construction (`from_json` / `model_validate`): run the
schema field validator, then the `available_rows` model validator. -/
def mkPayload (sensor_id : Option String)
    (sensor_schema : Option (List (String × String)))
    (sensor_name : Option String)
    (opDetailsAvailableRows : Option Int) :
    Except (List (String × String)) KPayload :=
  match sensor_schema with
  | none => .ok ⟨sensor_id, none, sensor_name, deriveAvailableRows opDetailsAvailableRows⟩
  | some s =>
    match validate_schema s with
    | .error invalid => .error invalid
    | .ok s => .ok ⟨sensor_id, some s, sensor_name, deriveAvailableRows opDetailsAvailableRows⟩

/-! ## Resilient connector (`kronicle/connectors/abc_connector.py`)

An HTTP response is abstracted to its status code and the classification
of its body: empty content, content that fails JSON decoding, a JSON
object (with the outcomes of validating it as a `KroniclePayload` and as
a `KronicleHTTPErrorModel`), a JSON array (with each element's outcome
of validating as a payload), or any other JSON value (null, number,
string, boolean). -/

/-- A successfully parsed `KronicleHTTPErrorModel`; its structured
fields (status, error, message, path, method, request id) are carried
opaquely since no claim inspects them. -/
structure HttpErrInfo where
  tag : Nat
deriving DecidableEq

/-- The decoded body of a response, with the pydantic validation
outcomes supplied by the environment. -/
inductive JsonBody
  | empty
  | invalidJson
  | jdict (asPayload : Option KPayload) (asErrModel : Option HttpErrInfo)
  | jlist (items : List (Option KPayload))
  | jother

/-- One attempt of the retry loop either raises a transport-level
exception inside `method(...)` or produces an HTTP response. -/
inductive AttemptOutcome
  | transportFail (excId : Nat)
  | httpResponse (status : Nat) (body : JsonBody)

/-- What `_parse` returns: one payload, a list of payloads, or (when
`strict` is false) the raw decoded structure. -/
inductive Parsed
  | one (p : KPayload)
  | many (ps : List KPayload)
  | raw (b : JsonBody)

/-- `[KroniclePayload.from_json(d) for d in data]`: succeeds only when
every element validates; the first failure raises. -/
def allPayloads : List (Option KPayload) → Option (List KPayload)
  | [] => some []
  | none :: _ => none
  | some p :: rest => (allPayloads rest).map (p :: ·)

/-- `KronicleAbstractConnector._parse`: `not response` is truthy for a
status ≥ 400 (`Response.__bool__` is `ok`), and together with empty
content raises `KronicleResponseError`; undecodable JSON raises; with
`strict` false the decoded structure is returned unvalidated; with
`strict` true an object must validate as one payload, an array as a list
of payloads, and any other shape raises `KronicleResponseError`. -/
def parseResponse (strict : Bool) (status : Nat) (body : JsonBody) :
    Except String Parsed :=
  if 400 ≤ status then .error "No response content received from Kronicle"
  else match body with
  | .empty => .error "No response content received from Kronicle"
  | .invalidJson => .error "Failed to decode JSON"
  | b =>
    if !strict then .ok (.raw b)
    else match b with
    | .jdict (some p) _ => .ok (.one p)
    | .jdict none _ => .error "Unexpected response format"
    | .jlist items =>
      match allPayloads items with
      | some ps => .ok (.many ps)
      | none => .error "Unexpected response format"
    | _ => .error "Unexpected response type"

/-- `KronicleHTTPError.from_response`: `response.json()` must succeed
and decode to an object that validates as `KronicleHTTPErrorModel`;
otherwise the raised exception is a plain `JSONDecodeError`,
`TypeError` or `ValidationError`, not a `KronicleHTTPError`. -/
def from_response : JsonBody → Except String HttpErrInfo
  | .jdict _ (some e) => .ok e
  | _ => .error "error body does not populate KronicleHTTPErrorModel"

/-- The generic exceptions the retry loop swallows: a transport failure,
or the failure of `from_response` on a status ≥ 400. -/
inductive GenExc
  | transport (excId : Nat)
  | errModelFail (status : Nat)
deriving DecidableEq

/-- The classified errors `_request` can raise. -/
inductive ReqErr
  | httpError (e : HttpErrInfo)
  | responseError (m : String)
  | connectionError (lastExc : Option GenExc)

/-- How one iteration of the `_request` loop body ends. -/
inductive StepRes
  | success (v : Parsed)
  | fatalHttp (e : HttpErrInfo)
  | fatalResp (m : String)
  | retry (exc : GenExc)

/-- One iteration of the `for _ in range(self._retries)` body: a status
≥ 400 raises `KronicleHTTPError` when the error body parses (re-raised
without retry) and otherwise a generic exception (swallowed and
retried); a status < 400 goes to `_parse`, whose
`KronicleResponseError` is re-raised without retry; a transport failure
is swallowed and retried. -/
def attemptStep (strict : Bool) : AttemptOutcome → StepRes
  | .transportFail e => .retry (.transport e)
  | .httpResponse st b =>
    if 400 ≤ st then
      match from_response b with
      | .ok e => .fatalHttp e
      | .error _ => .retry (.errModelFail st)
    else
      match parseResponse strict st b with
      | .ok v => .success v
      | .error m => .fatalResp m

/-- The observable trace of one `_request` call: its outcome, the number
of attempts made, and the list of sleep durations (one `sleep(delay)`
after every swallowed attempt, including the last). -/
structure ReqTrace where
  result : Except ReqErr Parsed
  attemptsMade : Nat
  sleeps : List Nat

/-- The retry loop of `_request`, over the remaining attempt budget; the
`attempts` oracle gives the outcome of the i-th issued HTTP call.  When
the budget is exhausted `KronicleConnectionError` is raised carrying the
last swallowed exception. -/
def requestLoop (strict : Bool) (delay : Nat) (attempts : Nat → AttemptOutcome) :
    Nat → Nat → List Nat → Option GenExc → ReqTrace
  | 0, made, slept, lastExc => ⟨.error (.connectionError lastExc), made, slept⟩
  | n + 1, made, slept, lastExc =>
    match attemptStep strict (attempts made) with
    | .success v => ⟨.ok v, made + 1, slept⟩
    | .fatalHttp e => ⟨.error (.httpError e), made + 1, slept⟩
    | .fatalResp m => ⟨.error (.responseError m), made + 1, slept⟩
    | .retry exc =>
      requestLoop strict delay attempts n (made + 1) (slept ++ [delay]) (some exc)

/-- `KronicleAbstractConnector._request`, given the connector's retry
budget (`self._retries`, default 5) and fixed delay (`self._delay`,
default 2). -/
def runRequest (retries delay : Nat) (strict : Bool)
    (attempts : Nat → AttemptOutcome) : ReqTrace :=
  requestLoop strict delay attempts retries 0 [] none

/-- Per-connector retry configuration (defaults from `__init__`). -/
structure Conn where
  retries : Nat := 5
  delay : Nat := 2

/-- The mutable state of one connector instance: the directory cache
(`self._metadata_cache`; absent attribute and `None` both modelled as
`none`) and a counter of issued `_request` calls (each such call is one
underlying request, executed as a bounded retry loop). -/
structure ConnState where
  metadata_cache : Option (List KPayload) := none
  requestCount : Nat := 0

/-- `_invalidate_cache`. -/
def invalidate_cache (s : ConnState) : ConnState :=
  { s with metadata_cache := none }

/-- The body argument of a verb, classified by what the connector tests:
`not body` is truthy for `None` and for an empty dict; a value that is
neither a dict nor a `KroniclePayload` makes `_request` raise
`TypeError` before any HTTP call. -/
inductive BodyArg
  | noBody
  | emptyDict
  | goodBody
  | badType

/-- `not body`. -/
def bodyFalsy : BodyArg → Bool
  | .noBody => true
  | .emptyDict => true
  | _ => false

/-- `isinstance(body, dict) or isinstance(body, KroniclePayload)`. -/
def bodyTypeOk : BodyArg → Bool
  | .badType => false
  | _ => true

/-- The errors a verb call can surface. -/
inductive SdkErr
  | typeError (m : String)
  | valueError (m : String)
  | reqErr (e : ReqErr)

/-- Issue one `_request` call: the request counter grows by one and the
retry loop runs against the attempt oracle. -/
def doRequest (c : Conn) (strict : Bool) (attempts : Nat → AttemptOutcome)
    (s : ConnState) : Except ReqErr Parsed × ConnState :=
  ((runRequest c.retries c.delay strict attempts).result,
    { s with requestCount := s.requestCount + 1 })

/-- `KronicleAbstractConnector.get` (no cache invalidation). -/
def getVerb (c : Conn) (attempts : Nat → AttemptOutcome) (s : ConnState) :
    Except ReqErr Parsed × ConnState :=
  doRequest c true attempts s

/-- `KronicleAbstractConnector.post`: invalidate the cache, then
`_request` (which raises `TypeError` before any HTTP call if the body
has an invalid type). -/
def post (c : Conn) (body : BodyArg) (attempts : Nat → AttemptOutcome)
    (s : ConnState) : Except SdkErr Parsed × ConnState :=
  let s1 := invalidate_cache s
  if !bodyTypeOk body then
    (.error (.typeError "Invalid body type"), s1)
  else
    let (r, s2) := doRequest c true attempts s1
    (r.mapError .reqErr, s2)

/-- `KronicleAbstractConnector.put`: the empty-body check comes first,
raising `ValueError` before the cache is invalidated. -/
def put (c : Conn) (body : BodyArg) (attempts : Nat → AttemptOutcome)
    (s : ConnState) : Except SdkErr Parsed × ConnState :=
  if bodyFalsy body then
    (.error (.valueError "Please provide a body for this request"), s)
  else
    let s1 := invalidate_cache s
    if !bodyTypeOk body then
      (.error (.typeError "Invalid body type"), s1)
    else
      let (r, s2) := doRequest c true attempts s1
      (r.mapError .reqErr, s2)

/-- `KronicleAbstractConnector.patch`: same shape as `put`. -/
def patchVerb (c : Conn) (body : BodyArg) (attempts : Nat → AttemptOutcome)
    (s : ConnState) : Except SdkErr Parsed × ConnState :=
  put c body attempts s

/-- `KronicleAbstractConnector.delete`: invalidate, then `_request`. -/
def deleteVerb (c : Conn) (attempts : Nat → AttemptOutcome) (s : ConnState) :
    Except SdkErr Parsed × ConnState :=
  let s1 := invalidate_cache s
  let (r, s2) := doRequest c true attempts s1
  (r.mapError .reqErr, s2)

/-- `get_all_channels`: `GET channels` through `_ensure_is_payload_list`,
which raises `TypeError` unless the result is a list of payloads. -/
def get_all_channels (c : Conn) (attempts : Nat → AttemptOutcome)
    (s : ConnState) : Except SdkErr (List KPayload) × ConnState :=
  match getVerb c attempts s with
  | (.ok (.many ps), s1) => (.ok ps, s1)
  | (.ok (.one _), s1) => (.error (.typeError "List expected"), s1)
  | (.ok (.raw _), s1) => (.error (.typeError "List expected"), s1)
  | (.error e, s1) => (.error (.reqErr e), s1)

/-- The `all_channels` cached property: serve the cache when present,
else fetch via `get_all_channels` and store the result (a raised error
leaves the cache unset). -/
def all_channels (c : Conn) (attempts : Nat → AttemptOutcome) (s : ConnState) :
    Except SdkErr (List KPayload) × ConnState :=
  match s.metadata_cache with
  | some l => (.ok l, s)
  | none =>
    match get_all_channels c attempts s with
    | (.ok ps, s1) => (.ok ps, { s1 with metadata_cache := some ps })
    | (.error e, s1) => (.error e, s1)

/-- `get_channel`: `GET channels/{id}` through
`_ensure_is_payload_or_none`, whose `None if not res else ...` maps a
falsy result (an empty list) to `None` and checks a truthy result is a
single payload (a nonempty list raises `TypeError`).  The `raw` case is
unreachable since `get` parses strictly. -/
def get_channel (c : Conn) (attempts : Nat → AttemptOutcome) (s : ConnState) :
    Except SdkErr (Option KPayload) × ConnState :=
  match getVerb c attempts s with
  | (.ok (.one p), s1) => (.ok (some p), s1)
  | (.ok (.many []), s1) => (.ok none, s1)
  | (.ok (.many (_ :: _)), s1) => (.error (.typeError "KroniclePayload expected"), s1)
  | (.ok (.raw _), s1) => (.error (.typeError "KroniclePayload expected"), s1)
  | (.error e, s1) => (.error (.reqErr e), s1)

/-- The loop of `get_channel_with_max_rows`, carrying the running
maximum (initially 0) and the recorded channel id (initially `None`),
updated on a strict `>` comparison. -/
def scanMax : List KPayload → Int → Option String → Int × Option String
  | [], m, cid => (m, cid)
  | ch :: rest, m, cid =>
    if m < ch.available_rows then scanMax rest ch.available_rows ch.sensor_id
    else scanMax rest m cid

/-- `get_channel_with_max_rows` applied to a channel list: return the
recorded id and maximum when the maximum is positive, else
`(None, None)`. -/
def maxRowsOf (chans : List KPayload) : Option String × Option Int :=
  let r := scanMax chans 0 none
  if 0 < r.1 then (r.2, some r.1) else (none, none)

/-- `get_channel_with_max_rows`: scan `self.all_channels` (the cached
directory, fetched if absent). -/
def get_channel_with_max_rows (c : Conn) (attempts : Nat → AttemptOutcome)
    (s : ConnState) : Except SdkErr (Option String × Option Int) × ConnState :=
  match all_channels c attempts s with
  | (.ok chans, s1) => (.ok (maxRowsOf chans), s1)
  | (.error e, s1) => (.error e, s1)

/-! ## Concrete instances used by counterexamples and witnesses -/

/-- Python `bool`: `issubclass(bool, int)` holds, so it subclasses both
the `"int"` and the `"bool"` entries of `COL_TO_PY_TYPE`. -/
def boolCls : PyClass := ⟨[.int, .bool], some .bool, false⟩

/-- Python `int`. -/
def intCls : PyClass := ⟨[.int], some .int, false⟩

/-- Python `str`. -/
def strCls : PyClass := ⟨[.str], some .str, false⟩

/-- A connector with the default retry budget (5 attempts, delay 2). -/
def defaultConn : Conn := {}

/-- A fresh connector state: no cache, no requests issued. -/
def freshState : ConnState := {}

/-- Every attempt raises a transport-level failure. -/
def c1Attempts : Nat → AttemptOutcome := fun i => .transportFail i

/-- Every attempt returns status 404 with a body that is not JSON, so
`KronicleHTTPError.from_response` itself raises. -/
def c2Attempts : Nat → AttemptOutcome := fun _ => .httpResponse 404 .invalidJson

/-- Every attempt returns status 404 with a well-formed structured error
body. -/
def c2AttemptsOk : Nat → AttemptOutcome :=
  fun _ => .httpResponse 404 (.jdict none (some ⟨7⟩))

/-- A sample field annotated with the union `int | str`. -/
def unionFieldDemo : FieldDecl := ⟨"u", .unionOf [.cls intCls, .cls strCls]⟩

/-- A sample field annotated with the union `bool | str | None`. -/
def unionFieldDemo2 : FieldDecl := ⟨"w", .unionOf [.cls boolCls, .cls strCls, .noneType]⟩

/-- A cached channel used by the cache counterexample. -/
def demoChan : KPayload := ⟨some "c0", none, none, 7⟩

/-- A connector state whose directory cache is already populated. -/
def c5State : ConnState := ⟨some [demoChan], 0⟩

/-- An attempt oracle whose first response is the JSON array holding
`demoChan`. -/
def c5FreshAtt : Nat → AttemptOutcome :=
  fun _ => .httpResponse 200 (.jlist [some demoChan])

/-- The directory of the `getChannelWithMaxRows` example: `availableRows`
= [0, 3, 3, 1]. -/
def demoScan : List KPayload :=
  [⟨some "c0", none, none, 0⟩, ⟨some "c1", none, none, 3⟩,
   ⟨some "c2", none, none, 3⟩, ⟨some "c3", none, none, 1⟩]

/-- The schema validation example `{"time": "datetime", "temp": "unknown_type"}`. -/
def demoSchema : List (String × String) := [("time", "datetime"), ("temp", "unknown_type")]

/-- The service responds with an empty body. -/
def c9Att : Nat → AttemptOutcome := fun _ => .httpResponse 200 .empty

/-- The service responds with the JSON literal `null`. -/
def c9AttNull : Nat → AttemptOutcome := fun _ => .httpResponse 200 .jother

/-- The service responds with an empty JSON array. -/
def c9AttEmptyList : Nat → AttemptOutcome := fun _ => .httpResponse 200 (.jlist [])

/-- `Optional[str]` as an annotation. -/
def optStrAnn : PyAnn := .unionOf [.cls strCls, .noneType]

/-- The sample instance used by the `to_row` witnesses: an optional
field left unset and a required string field. -/
def demoInst : SampleInst :=
  ⟨⟨[⟨"a", optStrAnn⟩, ⟨"b", .cls strCls⟩]⟩, [("a", .noneV), ("b", .strV "x")]⟩

/-- The sample instance used by the empty-collection witness: a field
declared `list[str]` holding `[]` and a field declared `dict[str, str]`
holding an empty dict. -/
def emptyCollInst : SampleInst :=
  ⟨⟨[⟨"xs", .listOf (.cls strCls)⟩, ⟨"kv", .dictOf (.cls strCls) (.cls strCls)⟩]⟩,
   [("xs", .listV []), ("kv", .dictV [])]⟩

/-! ## Retry-loop lemmas and claims C1, C2 -/

theorem requestLoop_transport (strict : Bool) (d : Nat)
    (attempts : Nat → AttemptOutcome) (excs : Nat → Nat) :
    ∀ (n made : Nat) (slept : List Nat) (le : Option GenExc),
      (∀ i, i < n → attempts (made + i) = .transportFail (excs (made + i))) →
      requestLoop strict d attempts n made slept le =
        ⟨.error (.connectionError
            (if n = 0 then le else some (.transport (excs (made + n - 1))))),
          made + n, slept ++ List.replicate n d⟩ := by
  intro n
  induction n with
  | zero =>
    intro made slept le _
    simp [requestLoop]
  | succ k ih =>
    intro made slept le h
    have h0 := h 0 (Nat.succ_pos k)
    rw [Nat.add_zero] at h0
    have hrest : ∀ i, i < k →
        attempts (made + 1 + i) = .transportFail (excs (made + 1 + i)) := by
      intro i hi
      have := h (i + 1) (by omega)
      rwa [show made + (i + 1) = made + 1 + i by omega] at this
    rw [requestLoop]
    rw [h0]
    simp only [attemptStep]
    rw [ih (made + 1) (slept ++ [d]) (some (.transport (excs made))) hrest]
    have harg : (if k = 0 then some (GenExc.transport (excs made))
        else some (GenExc.transport (excs (made + 1 + k - 1)))) =
        some (.transport (excs (made + (k + 1) - 1))) := by
      rcases Nat.eq_zero_or_pos k with hk | hk
      · subst hk; simp
      · rw [if_neg (by omega), show made + 1 + k - 1 = made + (k + 1) - 1 by omega]
    rw [harg]
    congr 1
    · omega
    · rw [List.append_assoc, List.replicate_succ]
      rfl

/-- C1: the claim states that with retry budget N and delay D, all-N
transport failures give exactly N attempts and N-1 sleeps before
`KronicleConnectionError`.  On the code the `except Exception` branch
executes `sleep(self._delay)` after every swallowed attempt, the last
one included: with the default budget 5/2 the loop makes 5 attempts and
sleeps 5 times (not 4) before raising. -/
theorem c1_counterexample :
    (runRequest 5 2 true c1Attempts).attemptsMade = 5 ∧
    (runRequest 5 2 true c1Attempts).sleeps = [2, 2, 2, 2, 2] ∧
    (runRequest 5 2 true c1Attempts).sleeps.length ≠ 5 - 1 ∧
    (runRequest 5 2 true c1Attempts).result =
      .error (.connectionError (some (.transport 4))) :=
  ⟨rfl, rfl, by decide, rfl⟩

/-- C1 (amended): with retry budget N ≥ 1 and fixed delay D, if every
attempt raises a transport-level failure then `_request` makes exactly N
attempts, sleeps exactly N times for D (once after every failed attempt,
the final one included), and raises `KronicleConnectionError` wrapping
the last transport failure. -/
theorem c1_retry_exhaustion (retries delay : Nat)
    (attempts : Nat → AttemptOutcome) (excs : Nat → Nat)
    (hpos : 1 ≤ retries)
    (h : ∀ i, i < retries → attempts i = .transportFail (excs i)) :
    runRequest retries delay true attempts =
      ⟨.error (.connectionError (some (.transport (excs (retries - 1))))),
        retries, List.replicate retries delay⟩ := by
  have key := requestLoop_transport true delay attempts excs retries 0 [] none
    (by simpa using h)
  rw [runRequest, key]
  rw [if_neg (by omega)]
  simp

/-- C1 witness: the amended statement at the default budget 5/2. -/
theorem c1_witness :
    runRequest 5 2 true c1Attempts =
      ⟨.error (.connectionError (some (.transport 4))), 5, List.replicate 5 2⟩ :=
  c1_retry_exhaustion 5 2 c1Attempts (fun i => i) (by decide) (fun _ _ => rfl)

/-- C2: the claim states that any attempt with HTTP status ≥ 400 raises
`KronicleHTTPError` immediately, with no further attempts and no delay.
On the code, `KronicleHTTPError.from_response` first calls
`response.json()` and validates the error model; when the ≥ 400 body is
not decodable (here: status 404 with a non-JSON body on every attempt)
that raises a plain exception which the generic `except Exception`
branch swallows: all 5 attempts run, 5 delays are slept, and the call
ends in `KronicleConnectionError` — no `KronicleHTTPError` and not 1
attempt. -/
theorem c2_counterexample :
    (runRequest 5 2 true c2Attempts).attemptsMade = 5 ∧
    (runRequest 5 2 true c2Attempts).sleeps = [2, 2, 2, 2, 2] ∧
    (runRequest 5 2 true c2Attempts).result =
      .error (.connectionError (some (.errModelFail 404))) :=
  ⟨rfl, rfl, rfl⟩

/-- C2 (amended): an attempt whose HTTP status is ≥ 400 *and whose error
body validates as the structured error model* raises `KronicleHTTPError`
on that attempt with no further attempts and no delay; an attempt with
status < 400 and a malformed response (empty body, invalid JSON, or a
decoded shape that is not a payload or list of payloads) raises
`KronicleResponseError` likewise; in particular either error on the
first attempt means exactly 1 attempt and 0 sleeps.  (A status ≥ 400
whose body does not populate the error model is instead swallowed and
retried, per the counterexample.) -/
theorem c2_no_retry_on_classified_errors (retries delay : Nat)
    (attempts : Nat → AttemptOutcome) (st : Nat) (b : JsonBody)
    (hpos : 1 ≤ retries) (hfirst : attempts 0 = .httpResponse st b) :
    (∀ e, 400 ≤ st → from_response b = .ok e →
      runRequest retries delay true attempts = ⟨.error (.httpError e), 1, []⟩) ∧
    (∀ m, st < 400 → parseResponse true st b = .error m →
      runRequest retries delay true attempts = ⟨.error (.responseError m), 1, []⟩) := by
  obtain ⟨k, rfl⟩ : ∃ k, retries = k + 1 := ⟨retries - 1, by omega⟩
  constructor
  · intro e h4 hfr
    rw [runRequest, requestLoop, hfirst]
    simp only [attemptStep, if_pos h4, hfr]
  · intro m h4 hp
    rw [runRequest, requestLoop, hfirst]
    simp only [attemptStep, if_neg (by omega : ¬ 400 ≤ st), hp]

/-- C2 witness: a first attempt answering 404 with a well-formed error
body gives exactly one attempt, no sleep, and `KronicleHTTPError`. -/
theorem c2_witness :
    runRequest 5 2 true c2AttemptsOk = ⟨.error (.httpError ⟨7⟩), 1, []⟩ :=
  (c2_no_retry_on_classified_errors 5 2 c2AttemptsOk 404 (.jdict none (some ⟨7⟩))
    (by decide) rfl).1 ⟨7⟩ (by decide) rfl

/-! ## Directory cache lemmas and claim C5 -/

theorem get_all_channels_state (c : Conn) (att : Nat → AttemptOutcome)
    (s : ConnState) :
    (get_all_channels c att s).2 = { s with requestCount := s.requestCount + 1 } := by
  rw [get_all_channels, getVerb, doRequest]
  rcases (runRequest c.retries c.delay true att).result with e | v
  · rfl
  · rcases v with p | ps | b
    · rfl
    · rfl
    · rfl

theorem get_all_channels_ok (c : Conn) (att : Nat → AttemptOutcome)
    (s : ConnState) (ps : List KPayload)
    (h : (get_all_channels c att s).1 = .ok ps) :
    get_all_channels c att s =
      (.ok ps, { s with requestCount := s.requestCount + 1 }) := by
  have h2 := get_all_channels_state c att s
  exact Prod.ext h h2

theorem all_channels_cached (c : Conn) (att : Nat → AttemptOutcome)
    (s : ConnState) (ps : List KPayload) (h : s.metadata_cache = some ps) :
    all_channels c att s = (.ok ps, s) := by
  rw [all_channels, h]

theorem all_channels_fresh_count (c : Conn) (att : Nat → AttemptOutcome)
    (s : ConnState) (h : s.metadata_cache = none) :
    (all_channels c att s).2.requestCount = s.requestCount + 1 := by
  rw [all_channels, h]
  rcases hg : get_all_channels c att s with ⟨r, s1⟩
  have hs1 : s1 = { s with requestCount := s.requestCount + 1 } := by
    have := get_all_channels_state c att s
    rw [hg] at this
    exact this
  rcases r with e | ps
  · simp [hs1]
  · simp [hs1]

theorem all_channels_fresh_ok (c : Conn) (att : Nat → AttemptOutcome)
    (s : ConnState) (ps : List KPayload) (h : s.metadata_cache = none)
    (hok : (all_channels c att s).1 = .ok ps) :
    (all_channels c att s).2 =
      { s with metadata_cache := some ps, requestCount := s.requestCount + 1 } := by
  rw [all_channels, h] at hok ⊢
  rcases hg : get_all_channels c att s with ⟨r, s1⟩
  have hs1 : s1 = { s with requestCount := s.requestCount + 1 } := by
    have := get_all_channels_state c att s
    rw [hg] at this
    exact this
  rw [hg] at hok
  rcases r with e | ps2
  · simp at hok
  · simp at hok ⊢
    rw [hs1, hok]
    exact ⟨rfl, rfl⟩

/-- C5: the claim states that *every* mutating verb invalidates the
directory cache before issuing its request, so the next `allChannels`
read refetches even when the mutating call itself failed.  `put` (and
`patch`) check `if not body` *before* `self._invalidate_cache()`: a
`put` with an empty body fails with `ValueError` while the cache is
still populated, and the next `allChannels` read serves the stale cache
with no underlying request. -/
theorem c5_counterexample :
    put defaultConn .noBody c1Attempts c5State =
      (.error (.valueError "Please provide a body for this request"), c5State) ∧
    c5State.metadata_cache = some [demoChan] ∧
    all_channels defaultConn c1Attempts c5State = (.ok [demoChan], c5State) ∧
    (all_channels defaultConn c1Attempts c5State).2.requestCount = 0 :=
  ⟨rfl, rfl, rfl, rfl⟩

/-- C5 (amended): two consecutive `allChannels` reads with no
intervening mutating call issue exactly one underlying request (the
second returns the cached list).  `post` and `delete` always invalidate
the directory cache before issuing their request, and `put`/`patch` do
so whenever their body is non-empty — in each case even if the call
itself fails — so the next `allChannels` read issues a new request.  A
`put`/`patch` with an empty body, however, raises `ValueError` before
the invalidation and leaves the cache intact. -/
theorem c5_cache_discipline (c : Conn) (att att2 : Nat → AttemptOutcome)
    (b : BodyArg) (s : ConnState) :
    (∀ ps, s.metadata_cache = none → (all_channels c att s).1 = .ok ps →
      (all_channels c att s).2.metadata_cache = some ps ∧
      (all_channels c att s).2.requestCount = s.requestCount + 1 ∧
      all_channels c att2 (all_channels c att s).2 =
        (.ok ps, (all_channels c att s).2)) ∧
    ((post c b att s).2.metadata_cache = none) ∧
    ((deleteVerb c att s).2.metadata_cache = none) ∧
    (bodyFalsy b = false →
      (put c b att s).2.metadata_cache = none ∧
      (patchVerb c b att s).2.metadata_cache = none) ∧
    (s.metadata_cache = none →
      (all_channels c att s).2.requestCount = s.requestCount + 1) := by
  refine ⟨?_, ?_, ?_, ?_, fun h => all_channels_fresh_count c att s h⟩
  · intro ps h hok
    have h2 := all_channels_fresh_ok c att s ps h hok
    refine ⟨by rw [h2], by rw [h2], ?_⟩
    exact all_channels_cached c att2 _ ps (by rw [h2])
  · rw [post]
    rcases b with _ | _ | _ | _
    · rfl
    · rfl
    · rfl
    · rfl
  · rfl
  · intro hb
    rw [put, patchVerb, put, hb]
    rcases b with _ | _ | _ | _
    · simp [bodyFalsy] at hb
    · simp [bodyFalsy] at hb
    · exact ⟨rfl, rfl⟩
    · exact ⟨rfl, rfl⟩

/-- C5 witness: from a fresh connector, the first read issues the single
request and caches, the second read is served from the cache, and a
`post` (whatever its outcome) leaves the cache invalidated. -/
theorem c5_witness :
    (all_channels defaultConn c5FreshAtt freshState).2.metadata_cache = some [demoChan] ∧
    (all_channels defaultConn c5FreshAtt freshState).2.requestCount = 1 ∧
    all_channels defaultConn c5FreshAtt (all_channels defaultConn c5FreshAtt freshState).2 =
      (.ok [demoChan], (all_channels defaultConn c5FreshAtt freshState).2) ∧
    (post defaultConn .goodBody c5FreshAtt freshState).2.metadata_cache = none := by
  have h := c5_cache_discipline defaultConn c5FreshAtt c5FreshAtt .goodBody freshState
  have h1 := h.1 [demoChan] rfl rfl
  exact ⟨h1.1, h1.2.1, h1.2.2, h.2.1⟩

/-! ## Max-rows scan lemmas and claim C6 -/

theorem foldl_max_of_all_le (l : List Int) :
    ∀ m : Int, (∀ a ∈ l, a ≤ m) → l.foldl max m = m := by
  induction l with
  | nil => intro m _; rfl
  | cons a l ih =>
    intro m h
    rw [List.foldl_cons, max_eq_left (h a (List.mem_cons_self a l))]
    exact ih m (fun b hb => h b (List.mem_cons_of_mem a hb))

theorem le_foldl_max (l : List Int) :
    ∀ m : Int, m ≤ l.foldl max m := by
  induction l with
  | nil => intro m; exact le_refl m
  | cons a l ih =>
    intro m
    exact le_trans (le_max_left m a) (ih (max m a))

theorem mem_le_foldl_max (l : List Int) :
    ∀ (m a : Int), a ∈ l → a ≤ l.foldl max m := by
  induction l with
  | nil => intro m a ha; exact absurd ha (List.not_mem_nil a)
  | cons b l ih =>
    intro m a ha
    rcases List.mem_cons.mp ha with h | h
    · subst h
      exact le_trans (le_max_right m a) (le_foldl_max l (max m a))
    · exact ih (max m b) a h

theorem scanMax_all_le (l : List KPayload) :
    ∀ (m : Int) (cid : Option String),
      (∀ x ∈ l, x.available_rows ≤ m) → scanMax l m cid = (m, cid) := by
  induction l with
  | nil => intro m cid _; rfl
  | cons x l ih =>
    intro m cid h
    rw [scanMax, if_neg (not_lt.mpr (h x (List.mem_cons_self x l)))]
    exact ih m cid (fun y hy => h y (List.mem_cons_of_mem x hy))

theorem scanMax_exists_gt (l : List KPayload) :
    ∀ (m : Int) (cid : Option String),
      (∃ x ∈ l, m < x.available_rows) →
      ∃ ch, l.find? (fun x =>
          decide (x.available_rows = (l.map (·.available_rows)).foldl max m)) = some ch ∧
        scanMax l m cid = ((l.map (·.available_rows)).foldl max m, ch.sensor_id) ∧
        ch.available_rows = (l.map (·.available_rows)).foldl max m := by
  induction l with
  | nil =>
    intro m cid h
    obtain ⟨x, hx, _⟩ := h
    exact absurd hx (List.not_mem_nil x)
  | cons x xs ih =>
    intro m cid h
    rw [List.map_cons, List.foldl_cons]
    by_cases hx : m < x.available_rows
    · have hmx : max m x.available_rows = x.available_rows :=
        max_eq_right (le_of_lt hx)
      rw [hmx]
      rw [scanMax, if_pos hx]
      by_cases hxs : ∃ y ∈ xs, x.available_rows < y.available_rows
      · obtain ⟨ch, hfind, hscan, hch⟩ := ih x.available_rows x.sensor_id hxs
        refine ⟨ch, ?_, hscan, hch⟩
        rw [List.find?_cons]
        have hne : ¬ (x.available_rows =
            (xs.map (·.available_rows)).foldl max x.available_rows) := by
          obtain ⟨y, hy, hylt⟩ := hxs
          have : y.available_rows ≤
              (xs.map (·.available_rows)).foldl max x.available_rows :=
            mem_le_foldl_max _ _ _ (List.mem_map_of_mem (·.available_rows) hy)
          omega
        rw [decide_eq_false hne]
        exact hfind
      · push_neg at hxs
        have hfold : (xs.map (·.available_rows)).foldl max x.available_rows =
            x.available_rows := by
          refine foldl_max_of_all_le _ _ ?_
          intro a ha
          obtain ⟨y, hy, rfl⟩ := List.mem_map.mp ha
          exact hxs y hy
        rw [hfold]
        refine ⟨x, ?_, ?_, rfl⟩
        · rw [List.find?_cons, decide_eq_true rfl]
        · exact scanMax_all_le xs x.available_rows x.sensor_id
            (fun y hy => hxs y hy)
    · have hmx : max m x.available_rows = m :=
        max_eq_left (not_lt.mp hx)
      rw [hmx]
      rw [scanMax, if_neg hx]
      have hxs : ∃ y ∈ xs, m < y.available_rows := by
        obtain ⟨y, hy, hylt⟩ := h
        rcases List.mem_cons.mp hy with rfl | hmem
        · exact absurd hylt hx
        · exact ⟨y, hmem, hylt⟩
      obtain ⟨ch, hfind, hscan, hch⟩ := ih m cid hxs
      refine ⟨ch, ?_, hscan, hch⟩
      rw [List.find?_cons]
      have hne : ¬ (x.available_rows = (xs.map (·.available_rows)).foldl max m) := by
        obtain ⟨y, hy, hylt⟩ := hxs
        have : y.available_rows ≤ (xs.map (·.available_rows)).foldl max m :=
          mem_le_foldl_max _ _ _ (List.mem_map_of_mem (·.available_rows) hy)
        have hxm : x.available_rows ≤ m := not_lt.mp hx
        omega
      rw [decide_eq_false hne]
      exact hfind

/-- C6: `get_channel_with_max_rows` over the cached directory returns
`(None, None)` when no channel has `availableRows > 0`, and otherwise
the `sensor_id` and row count of the earliest-scanned channel achieving
the maximum `availableRows` — the first channel the `find?` scan locates
at the maximum, since the code compares with strict `>` and ties keep
the earlier channel. -/
theorem c6_max_rows_scan (chans : List KPayload) :
    ((∀ ch ∈ chans, ch.available_rows ≤ 0) → maxRowsOf chans = (none, none)) ∧
    (∀ ch0, ch0 ∈ chans → 0 < ch0.available_rows →
      ∃ ch, chans.find? (fun x =>
          decide (x.available_rows = (chans.map (·.available_rows)).foldl max 0)) = some ch ∧
        maxRowsOf chans = (ch.sensor_id, some ch.available_rows) ∧
        ch.available_rows = (chans.map (·.available_rows)).foldl max 0) := by
  constructor
  · intro h
    rw [maxRowsOf, scanMax_all_le chans 0 none h]
    rfl
  · intro ch0 hmem hpos
    obtain ⟨ch, hfind, hscan, hch⟩ :=
      scanMax_exists_gt chans 0 none ⟨ch0, hmem, hpos⟩
    refine ⟨ch, hfind, ?_, hch⟩
    rw [maxRowsOf, hscan]
    have hM : 0 < (chans.map (·.available_rows)).foldl max 0 :=
      lt_of_lt_of_le hpos
        (mem_le_foldl_max _ _ _ (List.mem_map_of_mem (·.available_rows) hmem))
    rw [if_pos hM, hch]

/-- C6 witness: over `availableRows` = [0, 3, 3, 1] the scan returns the
identifier of the first channel with value 3 together with 3. -/
theorem c6_witness :
    maxRowsOf demoScan = (some "c1", some 3) ∧
    (∃ ch ∈ demoScan, 0 < ch.available_rows) := by
  constructor
  · obtain ⟨ch, hfind, heq, _⟩ :=
      (c6_max_rows_scan demoScan).2 ⟨some "c1", none, none, 3⟩ (by decide) (by decide)
    have hf : demoScan.find? (fun x =>
        decide (x.available_rows = (demoScan.map (·.available_rows)).foldl max 0)) =
        some ⟨some "c1", none, none, 3⟩ := by decide
    rw [hf] at hfind
    cases hfind
    exact heq
  · exact ⟨⟨some "c1", none, none, 3⟩, by decide, by decide⟩

/-! ## Schema validation: claim C7 -/

/-- C7: if any `sensorSchema` value lies outside the fixed label set
`{str, int, float, bool, datetime, dict, list}`, payload construction
fails with a `ValueError` carrying exactly the offending key/value
pairs (every one of them, and nothing else); if all values are in the
label set, the validation passes and the schema is kept. -/
theorem c7_schema_validation (sid sname : Option String) (oar : Option Int)
    (schema : List (String × String)) :
    ((∃ kv ∈ schema, kv.2 ∉ STR_TYPES) →
      ∃ invalid, mkPayload sid (some schema) sname oar = .error invalid ∧
        invalid ≠ [] ∧
        (∀ kv, kv ∈ invalid ↔ kv ∈ schema ∧ kv.2 ∉ STR_TYPES)) ∧
    ((∀ kv ∈ schema, kv.2 ∈ STR_TYPES) →
      ∃ p, mkPayload sid (some schema) sname oar = .ok p ∧
        p.sensor_schema = some schema) := by
  constructor
  · intro h
    obtain ⟨kv, hkv, hout⟩ := h
    refine ⟨schema.filter (fun kv => !(decide (kv.2 ∈ STR_TYPES))), ?_, ?_, ?_⟩
    · rw [mkPayload, validate_schema]
      have hne : schema.filter (fun kv => !(decide (kv.2 ∈ STR_TYPES))) ≠ [] := by
        refine List.ne_nil_of_mem (a := kv) ?_
        rw [List.mem_filter]
        exact ⟨hkv, by simpa using hout⟩
      rw [if_neg (by simpa [List.isEmpty_iff] using hne)]
    · refine List.ne_nil_of_mem (a := kv) ?_
      rw [List.mem_filter]
      exact ⟨hkv, by simpa using hout⟩
    · intro kv2
      rw [List.mem_filter]
      simp
  · intro h
    rw [mkPayload, validate_schema]
    have hnil : schema.filter (fun kv => !(decide (kv.2 ∈ STR_TYPES))) = [] := by
      rw [List.filter_eq_nil_iff]
      intro kv hkv
      simpa using h kv hkv
    rw [if_pos (by simpa [List.isEmpty_iff] using hnil)]
    exact ⟨_, rfl, rfl⟩

/-- C7 witness: `{"time": "datetime", "temp": "unknown_type"}` fails
naming exactly `("temp", "unknown_type")`. -/
theorem c7_witness :
    (∃ kv ∈ demoSchema, kv.2 ∉ STR_TYPES) ∧
    (∃ invalid, mkPayload none (some demoSchema) none none = .error invalid ∧
      invalid ≠ [] ∧
      (∀ kv, kv ∈ invalid ↔ kv ∈ demoSchema ∧ kv.2 ∉ STR_TYPES)) ∧
    mkPayload none (some demoSchema) none none = .error [("temp", "unknown_type")] :=
  ⟨by decide, (c7_schema_validation none none none demoSchema).1 (by decide), rfl⟩

/-! ## Type checker lemmas and claims C3, C4 -/

theorem is_valid_union_not_true (args : List PyAnn)
    (h2 : 2 ≤ (nonNoneArgs args).length) :
    is_valid (.unionOf args) ≠ .ok true := by
  rw [is_valid]
  by_cases hn : hasNoneType args
  · rw [if_pos hn]
    rcases hargs : nonNoneArgs args with _ | ⟨t, rest⟩
    · rw [hargs] at h2; simp at h2
    · rcases rest with _ | ⟨t2, rest2⟩
      · rw [hargs] at h2; simp at h2
      · intro hcontra
        exact Except.noConfusion hcontra
  · rw [if_neg hn]
    intro hcontra
    have := Except.ok.inj hcontra
    exact Bool.noConfusion this

theorem checkFields_err_of_invalid (fields : List FieldDecl)
    (h : ∃ f ∈ fields, is_valid f.ann ≠ .ok true) :
    ∃ m, checkFields fields = .error m := by
  induction fields with
  | nil =>
    obtain ⟨f, hf, _⟩ := h
    exact absurd hf (List.not_mem_nil f)
  | cons f0 rest ih =>
    rw [checkFields]
    rcases hv : is_valid f0.ann with e | b
    · exact ⟨e, by simp [bind, Except.bind]⟩
    · rcases b with _ | _
      · exact ⟨"Field " ++ f0.name ++ " has unsupported type for Kronicable",
          by simp [bind, Except.bind]⟩
      · obtain ⟨f, hf, hne⟩ := h
        rcases List.mem_cons.mp hf with rfl | hmem
        · exact absurd hv hne
        · obtain ⟨m, hm⟩ := ih ⟨f, hmem, hne⟩
          exact ⟨m, by simp [bind, Except.bind, hm]⟩

/-- C3: the claim states a sample type declaring a field annotated with
a union of two or more non-null types is rejected *at the time the
sample type is defined*, before any instance is constructed.  On the
code, `_check_field_types` is a pydantic `model_validator(mode="before")`:
class creation runs no validator, so defining the class succeeds; the
`TypeError` is raised only when instance validation (construction)
first runs. -/
theorem c3_counterexample :
    defineSampleType [unionFieldDemo] = .ok ⟨[unionFieldDemo]⟩ ∧
    constructInstance ⟨[unionFieldDemo]⟩ [("u", .intV 1)] =
      .error "Field u has unsupported type for Kronicable" := by
  refine ⟨rfl, ?_⟩
  simp [constructInstance, checkFields, is_valid, hasNoneType, isNoneTypeAnn,
    bind, Except.bind, unionFieldDemo]

/-- C3 (amended): for every sample type declaring a field whose
annotation is a union of two or more non-null types, defining the class
succeeds, and the type-compatibility check rejects the type when the
first instance is validated: every construction attempt raises
(`TypeError`) before an instance is produced. -/
theorem c3_union_rejected_at_validation (fields : List FieldDecl)
    (f : FieldDecl) (args : List PyAnn) (hf : f ∈ fields)
    (hann : f.ann = .unionOf args) (h2 : 2 ≤ (nonNoneArgs args).length) :
    defineSampleType fields = .ok ⟨fields⟩ ∧
    ∀ vals, ∃ m, constructInstance ⟨fields⟩ vals = .error m := by
  refine ⟨rfl, ?_⟩
  intro vals
  have hinv : is_valid f.ann ≠ .ok true := by
    rw [hann]
    exact is_valid_union_not_true args h2
  obtain ⟨m, hm⟩ := checkFields_err_of_invalid fields ⟨f, hf, hinv⟩
  exact ⟨m, by simp [constructInstance, bind, Except.bind, hm]⟩

/-- C3 witness: the amended statement at the field `w : bool | str | None`. -/
theorem c3_witness :
    defineSampleType [unionFieldDemo2] = .ok ⟨[unionFieldDemo2]⟩ ∧
    ∃ m, constructInstance ⟨[unionFieldDemo2]⟩ [("w", .strV "y")] = .error m := by
  have h := c3_union_rejected_at_validation [unionFieldDemo2] unionFieldDemo2
    [.cls boolCls, .cls strCls, .noneType]
    (List.mem_singleton_self unionFieldDemo2) rfl (by decide)
  exact ⟨h.1, h.2 [("w", .strV "y")]⟩

/-- C4: the claim states the schema label of a primitive equals the
name of the matching primitive, with `bool` mapping to `"bool"`.  On the
code `to_kronicle_type` iterates `COL_TO_PY_TYPE` in insertion order
(`str, int, float, bool, ...`) and returns the first key whose class the
annotation subclasses; Python `bool` subclasses `int`, so the loop
answers `"int"`, not `"bool"`. -/
theorem c4_counterexample :
    to_kronicle_type (.cls boolCls) = .ok "int" ∧ ("int" : String) ≠ "bool" := by
  constructor
  · simp [to_kronicle_type, is_valid, isTypeInst, subclassesAnyPrim, is_basemodel,
      is_valid_list, is_valid_dict, is_optional, primLoop, primOrder, subclassOfPrim,
      boolCls, primName, bind, Except.bind, pure, Except.pure, List.find?]
  · decide

/-- C4 (amended): every field annotation that is a class subclassing at
least one of the seven primitives (optionally wrapped in Optional) is
classified as valid, and its derived schema label is the name of the
*first* primitive in the fixed order `str, int, float, bool, datetime,
dict, list` of which it is a subclass — in particular `bool` maps to
`"int"` (Python `bool` subclasses `int`), and the SDK datetime
(`IsoDateTime`) maps to `"datetime"`. -/
theorem c4_primitive_label_first_match (c : PyClass) (k : PrimKind)
    (hfind : primLoop (.cls c) = some k) :
    (is_valid (.cls c) = .ok true ∧
      to_kronicle_type (.cls c) = .ok (primName k)) ∧
    (is_valid (.unionOf [.cls c, .noneType]) = .ok true ∧
      to_kronicle_type (.unionOf [.cls c, .noneType]) = .ok (primName k)) := by
  have hmem : k ∈ c.subPrim := by
    have := List.find?_some hfind
    simp [isTypeInst, subclassOfPrim] at this
    exact this
  have hne : c.subPrim.isEmpty = false := by
    rcases hs : c.subPrim with _ | _
    · rw [hs] at hmem; exact absurd hmem (List.not_mem_nil k)
    · rfl
  have hvalid : is_valid (.cls c) = .ok true := by
    simp [is_valid, isTypeInst, subclassesAnyPrim, hne]
  have hbare : to_kronicle_type (.cls c) = .ok (primName k) := by
    rw [to_kronicle_type]
    rw [hvalid]
    simp [bind, Except.bind, is_optional, pure, Except.pure, hfind]
  have hnonNone : nonNoneArgs [PyAnn.cls c, PyAnn.noneType] = [PyAnn.cls c] := rfl
  have hopt : is_optional (.unionOf [.cls c, .noneType]) = true := rfl
  have hvalidOpt : is_valid (.unionOf [.cls c, .noneType]) = .ok true := by
    rw [is_valid]
    rw [if_pos (by rfl)]
    rw [hnonNone]
    exact hvalid
  refine ⟨⟨hvalid, hbare⟩, hvalidOpt, ?_⟩
  rw [to_kronicle_type]
  rw [hvalidOpt]
  simp only [bind, Except.bind, Bool.not_true, Bool.false_eq_true, if_false,
    hopt, if_true, inner_optional, get_args, hnonNone]
  simp [hfind]

/-- C4 witness: the amended statement at Python `bool`, whose label is
`"int"` (also through `Optional[bool]`). -/
theorem c4_witness :
    is_valid (.cls boolCls) = .ok true ∧
    to_kronicle_type (.cls boolCls) = .ok "int" ∧
    to_kronicle_type (.unionOf [.cls boolCls, .noneType]) = .ok "int" := by
  have h := c4_primitive_label_first_match boolCls .int (by decide)
  exact ⟨h.1.1, h.1.2, h.2.2⟩

/-! ## Row serialization lemmas and claims C8, C10 -/

theorem to_row_go_cons (tp : SampleType) (vals : List (String × PyValue))
    (n : String) (rest : List String) (row : List (String × PyValue))
    (h : to_row_go tp vals (n :: rest) = .ok row) :
    ∃ v ann, lookupVal vals n = .ok v ∧ lookupAnn tp.fields n = .ok ann ∧
      ((v = .noneV ∧ is_optional ann = true ∧ to_row_go tp vals rest = .ok row) ∨
        (v ≠ .noneV ∧ ∃ r, to_row_go tp vals rest = .ok r ∧
          row = (n, rowValue v) :: r)) := by
  rw [to_row_go] at h
  rcases hv : lookupVal vals n with e | v <;> rw [hv] at h
  · simp [bind, Except.bind] at h
  rcases ha : lookupAnn tp.fields n with e2 | ann <;> rw [ha] at h
  · simp [bind, Except.bind] at h
  simp only [bind, Except.bind] at h
  refine ⟨v, ann, rfl, rfl, ?_⟩
  rcases v with _ | b | i | s | mf | xs | kvs
  · by_cases hopt : is_optional ann
    · rw [if_pos hopt] at h
      exact Or.inl ⟨rfl, by simpa using hopt, h⟩
    · rw [if_neg hopt] at h
      exact absurd h (by simp)
  all_goals
    refine Or.inr ⟨by simp, ?_⟩
  all_goals
    rcases hr : to_row_go tp vals rest with e3 | r <;> rw [hr] at h <;>
      simp [Functor.map, Except.map] at h
  all_goals
    exact ⟨r, rfl, h.symm⟩

theorem to_row_go_keys (tp : SampleType) (vals : List (String × PyValue)) :
    ∀ (fs : List String) (row : List (String × PyValue)),
      to_row_go tp vals fs = .ok row → ∀ kv ∈ row, kv.1 ∈ fs := by
  intro fs
  induction fs with
  | nil =>
    intro row h kv hkv
    rw [to_row_go] at h
    cases Except.ok.inj h
    exact absurd hkv (List.not_mem_nil kv)
  | cons n rest ih =>
    intro row h kv hkv
    obtain ⟨v, ann, hv, ha, hcase⟩ := to_row_go_cons tp vals n rest row h
    rcases hcase with ⟨_, _, hrest⟩ | ⟨_, r, hr, hrow⟩
    · exact List.mem_cons_of_mem n (ih row hrest kv hkv)
    · subst hrow
      rcases List.mem_cons.mp hkv with rfl | hmem

      · exact List.mem_cons_self n rest
      · exact List.mem_cons_of_mem n (ih r hr kv hmem)

theorem to_row_go_none_skipped (tp : SampleType) (vals : List (String × PyValue)) :
    ∀ (fs : List String) (row : List (String × PyValue)),
      to_row_go tp vals fs = .ok row →
      ∀ n, n ∈ fs → lookupVal vals n = .ok .noneV →
        (∃ ann, lookupAnn tp.fields n = .ok ann ∧ is_optional ann = true) ∧
        n ∉ row.map Prod.fst := by
  intro fs
  induction fs with
  | nil =>
    intro row _ n hn _
    exact absurd hn (List.not_mem_nil n)
  | cons n0 rest ih =>
    intro row h n hn hnone
    obtain ⟨v, ann, hv, ha, hcase⟩ := to_row_go_cons tp vals n0 rest row h
    rcases List.mem_cons.mp hn with rfl | hmem
    · rcases hcase with ⟨_, hopt, hrest⟩ | ⟨hne, _, _, _⟩
      · refine ⟨⟨ann, ha, hopt⟩, ?_⟩
        by_cases hin : n ∈ rest
        · exact (ih row hrest n hin hnone).2
        · intro hk
          obtain ⟨kv, hkv, hfst⟩ := List.mem_map.mp hk
          exact hin (hfst ▸ to_row_go_keys tp vals rest row hrest kv hkv)
      · rw [hnone] at hv
        exact absurd (Except.ok.inj hv).symm hne
    · rcases hcase with ⟨_, _, hrest⟩ | ⟨hne, r, hr, hrow⟩
      · exact ih row hrest n hmem hnone
      · have hih := ih r hr n hmem hnone
        refine ⟨hih.1, ?_⟩
        subst hrow
        rw [List.map_cons]
        intro hk
        rcases List.mem_cons.mp hk with heq | hmem2
        · rw [heq] at hnone
          rw [hnone] at hv
          exact hne (Except.ok.inj hv).symm
        · exact hih.2 hmem2

theorem to_row_go_mem (tp : SampleType) (vals : List (String × PyValue)) :
    ∀ (fs : List String) (row : List (String × PyValue)),
      to_row_go tp vals fs = .ok row →
      ∀ n v, n ∈ fs → lookupVal vals n = .ok v → v ≠ .noneV →
        (n, rowValue v) ∈ row := by
  intro fs
  induction fs with
  | nil =>
    intro row _ n v hn _ _
    exact absurd hn (List.not_mem_nil n)
  | cons n0 rest ih =>
    intro row h n v hn hv hvne
    obtain ⟨v0, ann, hv0, ha, hcase⟩ := to_row_go_cons tp vals n0 rest row h
    rcases List.mem_cons.mp hn with rfl | hmem
    · have hveq : v0 = v := by
        rw [hv] at hv0
        exact (Except.ok.inj hv0).symm
      subst hveq
      rcases hcase with ⟨hisnone, _, _⟩ | ⟨_, r, _, hrow⟩
      · exact absurd hisnone hvne
      · subst hrow
        exact List.mem_cons_self _ _
    · rcases hcase with ⟨_, _, hrest⟩ | ⟨_, r, hr, hrow⟩
      · exact ih row hrest n v hmem hv hvne
      · subst hrow
        exact List.mem_cons_of_mem _ (ih r hr n v hmem hv hvne)

theorem to_row_go_required_err (tp : SampleType) (vals : List (String × PyValue)) :
    ∀ (pre : List String) (n : String) (post : List String) (ann : PyAnn),
      lookupVal vals n = .ok .noneV →
      lookupAnn tp.fields n = .ok ann →
      is_optional ann = false →
      (∀ n2 ∈ pre, ∃ v2 ann2, lookupVal vals n2 = .ok v2 ∧
        lookupAnn tp.fields n2 = .ok ann2 ∧
        ¬(v2 = .noneV ∧ is_optional ann2 = false)) →
      to_row_go tp vals (pre ++ n :: post) = .error (requiredNoneMsg n) := by
  intro pre
  induction pre with
  | nil =>
    intro n post ann hv ha hreq _
    rw [List.nil_append, to_row_go]
    simp [bind, Except.bind, hv, ha, hreq]
  | cons p pre2 ih =>
    intro n post ann hv ha hreq hpre
    obtain ⟨v2, ann2, hv2, ha2, hok⟩ := hpre p (List.mem_cons_self p pre2)
    have hrec := ih n post ann hv ha hreq
      (fun n2 h2 => hpre n2 (List.mem_cons_of_mem p h2))
    rw [List.cons_append, to_row_go]
    simp only [bind, Except.bind, hv2, ha2]
    rcases v2 with _ | b | i | s | mf | xs | kvs
    · have hopt2 : is_optional ann2 = true := by
        by_contra hcon
        exact hok ⟨rfl, by simpa using hcon⟩
      rw [if_pos (by rw [hopt2])]
      exact hrec
    all_goals
      rw [hrec]
    all_goals
      rfl

/-- C8: for every sample and every included field of `to_row`: a `None`
value on an optional field means the key is wholly omitted from the
output row (and an omitted `None` value implies the field was optional);
a `None` value on a required field makes `to_row` raise a `ValueError`
naming that (first such) field; a `BaseModel` value (and a homogeneous
list or string-keyed dict of `BaseModel`s) is serialized to a JSON
string; all other values are copied unchanged. -/
theorem c8_to_row_none_handling (inst : SampleInst) (inc : Option (List String)) :
    (∀ row, to_row inst inc = .ok row →
      (∀ n, n ∈ includeResolve inst inc → lookupVal inst.vals n = .ok .noneV →
        (∃ ann, lookupAnn inst.tp.fields n = .ok ann ∧ is_optional ann = true) ∧
        n ∉ row.map Prod.fst) ∧
      (∀ n v, n ∈ includeResolve inst inc → lookupVal inst.vals n = .ok v →
        v ≠ .noneV → (n, rowValue v) ∈ row)) ∧
    (∀ pre n post ann, includeResolve inst inc = pre ++ n :: post →
      lookupVal inst.vals n = .ok .noneV →
      lookupAnn inst.tp.fields n = .ok ann →
      is_optional ann = false →
      (∀ n2 ∈ pre, ∃ v2 ann2, lookupVal inst.vals n2 = .ok v2 ∧
        lookupAnn inst.tp.fields n2 = .ok ann2 ∧
        ¬(v2 = .noneV ∧ is_optional ann2 = false)) →
      to_row inst inc = .error (requiredNoneMsg n)) ∧
    (∀ mfs, rowValue (.modelV mfs) = .strV (modelDumpJson (.modelV mfs))) ∧
    (∀ xs, xs.all isBaseModelV = true →
      rowValue (.listV xs) = .strV (jsonDumps (.listV xs))) ∧
    (∀ kvs, kvs.all (fun kv => isBaseModelV kv.2) = true →
      rowValue (.dictV kvs) = .strV (jsonDumps (.dictV kvs))) ∧
    (∀ xs, xs.all isBaseModelV = false → rowValue (.listV xs) = .listV xs) ∧
    (∀ b, rowValue (.boolV b) = .boolV b) ∧
    (∀ i, rowValue (.intV i) = .intV i) ∧
    (∀ s, rowValue (.strV s) = .strV s) := by
  refine ⟨?_, ?_, fun mfs => rfl, ?_, ?_, ?_, fun b => rfl, fun i => rfl, fun s => rfl⟩
  · intro row hok
    exact ⟨fun n hn hnone =>
        to_row_go_none_skipped inst.tp inst.vals _ row hok n hn hnone,
      fun n v hn hv hvne =>
        to_row_go_mem inst.tp inst.vals _ row hok n v hn hv hvne⟩
  · intro pre n post ann hsplit hv ha hreq hpre
    rw [to_row, hsplit]
    exact to_row_go_required_err inst.tp inst.vals pre n post ann hv ha hreq hpre
  · intro xs hall
    rw [rowValue, if_pos hall]
  · intro kvs hall
    rw [rowValue, if_pos hall]
  · intro xs hall
    rw [rowValue, if_neg (by rw [hall]; exact Bool.false_ne_true)]

/-- C8 witness: on the sample with optional `a` unset and required
`b = "x"`, `to_row` omits `a` and copies `b` unchanged. -/
theorem c8_witness :
    to_row demoInst none = .ok [("b", .strV "x")] ∧
    "a" ∉ ([("b", PyValue.strV "x")].map Prod.fst) ∧
    ("b", rowValue (.strV "x")) ∈ [("b", PyValue.strV "x")] := by
  have h := c8_to_row_none_handling demoInst none
  have hrow := h.1 [("b", .strV "x")] rfl
  have h1 := hrow.1 "a" (by decide) rfl
  have h2 := hrow.2 "b" (.strV "x") (by decide) rfl (by simp)
  exact ⟨rfl, h1.2, h2⟩

/-- C10: a field whose value is the empty list (or empty dict) is
serialized to the JSON string `"[]"` (resp. `"{}"`) rather than copied
as a collection — whatever the field declares as element type — because
`all(isinstance(v, BaseModel) ...)` is vacuously true on an empty
collection. -/
theorem c10_empty_collections_serialized (inst : SampleInst)
    (inc : Option (List String)) (row : List (String × PyValue)) (n : String)
    (hok : to_row inst inc = .ok row) (hn : n ∈ includeResolve inst inc) :
    (lookupVal inst.vals n = .ok (.listV []) → (n, .strV "[]") ∈ row) ∧
    (lookupVal inst.vals n = .ok (.dictV []) → (n, .strV "\x7b\x7d") ∈ row) := by
  constructor
  · intro hv
    have hm := to_row_go_mem inst.tp inst.vals _ row hok n (.listV []) hn hv (by simp)
    have heq : rowValue (.listV []) = .strV "[]" := rfl
    rwa [heq] at hm
  · intro hv
    have hm := to_row_go_mem inst.tp inst.vals _ row hok n (.dictV []) hn hv (by simp)
    have heq : rowValue (.dictV []) = .strV "\x7b\x7d" := rfl
    rwa [heq] at hm

/-- C10 witness: a field declared `list[str]` holding `[]` and a field
declared `dict[str, str]` holding an empty dict land in the row as the
strings `"[]"` and `"{}"`. -/
theorem c10_witness :
    to_row emptyCollInst none =
      .ok [("xs", .strV "[]"), ("kv", .strV "\x7b\x7d")] ∧
    ("xs", PyValue.strV "[]") ∈
      [("xs", PyValue.strV "[]"), ("kv", PyValue.strV "\x7b\x7d")] ∧
    ("kv", PyValue.strV "\x7b\x7d") ∈
      [("xs", PyValue.strV "[]"), ("kv", PyValue.strV "\x7b\x7d")] := by
  have h1 := c10_empty_collections_serialized emptyCollInst none
    [("xs", .strV "[]"), ("kv", .strV "\x7b\x7d")] "xs" rfl (by decide)
  have h2 := c10_empty_collections_serialized emptyCollInst none
    [("xs", .strV "[]"), ("kv", .strV "\x7b\x7d")] "kv" rfl (by decide)
  exact ⟨rfl, h1.1 rfl, h2.2 rfl⟩

/-! ## `get_channel` absence handling: claim C9 -/

/-- C9: the claim states `getChannel` returns absent (not an error) when
the service reports nothing — *an empty or null response body*.  On the
code `_parse` raises `KronicleResponseError("No response content...")`
on an empty body and `KronicleResponseError("Unexpected response
type...")` on decoded `null`; with the default budget the first attempt
already surfaces the error.  `None` is returned only when `_request`
produces a falsy value, i.e. an empty JSON array. -/
theorem c9_counterexample :
    get_channel defaultConn c9Att freshState =
      (.error (.reqErr (.responseError "No response content received from Kronicle")),
        ⟨none, 1⟩) ∧
    get_channel defaultConn c9AttNull freshState =
      (.error (.reqErr (.responseError "Unexpected response type")), ⟨none, 1⟩) ∧
    get_channel defaultConn c9AttEmptyList freshState = (.ok none, ⟨none, 1⟩) :=
  ⟨rfl, rfl, rfl⟩

/-- C9 (amended): `getChannel` returns absent (`None`, not an error)
when the service reports nothing for the id *as an empty JSON array*;
an empty response body or a JSON `null` body instead raises
`KronicleResponseError` on the first attempt. -/
theorem c9_get_channel_absent (c : Conn) (att : Nat → AttemptOutcome)
    (s : ConnState) (hpos : 1 ≤ c.retries) :
    (att 0 = .httpResponse 200 (.jlist []) →
      get_channel c att s = (.ok none, { s with requestCount := s.requestCount + 1 })) ∧
    (att 0 = .httpResponse 200 .empty →
      get_channel c att s =
        (.error (.reqErr (.responseError "No response content received from Kronicle")),
          { s with requestCount := s.requestCount + 1 })) ∧
    (att 0 = .httpResponse 200 .jother →
      get_channel c att s =
        (.error (.reqErr (.responseError "Unexpected response type")),
          { s with requestCount := s.requestCount + 1 })) := by
  obtain ⟨k, hk⟩ : ∃ k, c.retries = k + 1 := ⟨c.retries - 1, by omega⟩
  refine ⟨?_, ?_, ?_⟩
  all_goals
    intro h0
    rw [get_channel, getVerb, doRequest, runRequest, hk, requestLoop, h0]
    simp [attemptStep, parseResponse, allPayloads]

/-- C9 witness: the amended statement at the default connector, for the
empty-array, empty-body and null-body responses. -/
theorem c9_witness :
    get_channel defaultConn c9AttEmptyList freshState = (.ok none, ⟨none, 1⟩) ∧
    get_channel defaultConn c9Att freshState =
      (.error (.reqErr (.responseError "No response content received from Kronicle")),
        ⟨none, 1⟩) := by
  have h := c9_get_channel_absent defaultConn c9Att freshState (by decide)
  have h2 := c9_get_channel_absent defaultConn c9AttEmptyList freshState (by decide)
  exact ⟨h2.1 rfl, h.2.1 rfl⟩

end Kronicle
